import Mathlib

/-!
# omniscient/redis.go

A shallow embedding of `NewRedisClient` (the retry/backoff connection
bootstrap) and of the eight forwarding methods of `redisClient`.

The Go code talks to three collaborators that live outside the file: the
backoff policy (`backoff.DefaultPolicy.Duration`), the redis library
(`redis.NewClient`, the command methods of `redis.Client` and the `Result`
methods of the command objects) and the process (`time.Sleep`, `log.Printf`).
They are taken as parameters (`Env`) and every call made to them is recorded,
in program order, in the `trace` of an explicit `World` that is threaded
through the code.
-/

namespace Omniscient

/-! ## Data model -/

/-- A Go `error` value, observed through the text of its `Error()` method. -/
structure GoError where
  msg : String
deriving DecidableEq, Repr

/-- Go `time.Duration`: a signed number of nanoseconds. -/
abbrev Duration := Int

/-- A Go `interface{}` argument handed to `LRem` and `Set`. -/
inductive GoValue where
  | str (s : String)
  | int (n : Int)
  | bytes (b : List Nat)
deriving DecidableEq, Repr

/-- The fields of `redis.Options` that `NewRedisClient` fills in. -/
structure Options where
  Addr : String
  Password : String
  DB : Int
deriving DecidableEq, Repr

/-- The commands of `redis.Client` used by the file, with their arguments in
the order of the Go call. Variadic arguments are lists. -/
inductive Command where
  | Del (keys : List String)
  | HGetAllMap (key : String)
  | HMSet (key field value : String) (pairs : List String)
  | LPush (key : String) (values : List String)
  | LRange (key : String) (start stop : Int)
  | LRem (key : String) (count : Int) (value : GoValue)
  | Ping
  | Set (key : String) (value : GoValue) (expiration : Duration)
deriving DecidableEq, Repr

/-- The library type `*redis.IntCmd`, as seen through `Result()`. -/
structure IntCmd where
  val : Int
  err : Option GoError
deriving DecidableEq, Repr

/-- The library type `*redis.StatusCmd`, as seen through `Result()`. -/
structure StatusCmd where
  val : String
  err : Option GoError
deriving DecidableEq, Repr

/-- The library type `*redis.StringSliceCmd`, as seen through `Result()`. -/
structure StringSliceCmd where
  val : List String
  err : Option GoError
deriving DecidableEq, Repr

/-- The library type `*redis.StringStringMapCmd`, as seen through `Result()`;
a Go `map[string]string` is an association list. -/
structure StringStringMapCmd where
  val : List (String × String)
  err : Option GoError
deriving DecidableEq, Repr

/-- The method `(*redis.IntCmd).Result`. -/
def IntCmd.Result (c : IntCmd) : Int × Option GoError := (c.val, c.err)

/-- The method `(*redis.StatusCmd).Result`. -/
def StatusCmd.Result (c : StatusCmd) : String × Option GoError := (c.val, c.err)

/-- The method `(*redis.StringSliceCmd).Result`. -/
def StringSliceCmd.Result (c : StringSliceCmd) : List String × Option GoError := (c.val, c.err)

/-- The method `(*redis.StringStringMapCmd).Result`. -/
def StringStringMapCmd.Result (c : StringStringMapCmd) :
    List (String × String) × Option GoError := (c.val, c.err)

/-- One observable call made by the code to a collaborator. -/
inductive Event where
  /-- The call `backoff.DefaultPolicy.Duration(attempt)`. -/
  | policyQuery (attempt : Nat)
  /-- The call `time.Sleep(d)`. -/
  | sleep (d : Duration)
  /-- The call `log.Printf`, with the formatted text. -/
  | logLine (line : String)
  /-- The call `redis.NewClient(opts)`, which opens session number `session`. -/
  | newClient (session : Nat) (opts : Options)
  /-- One command issued on a session, with the error its `Result()` carries. -/
  | command (session : Nat) (cmd : Command) (err : Option GoError)
deriving DecidableEq, Repr

/-- The collaborators of the file, taken as parameters.

* `policy n` is what `backoff.DefaultPolicy.Duration(n)` returns: a duration
  or an error. The attempt counter is a Go `int` (64 bits) that starts at 0
  and is only incremented, once per failed network probe, so that it cannot
  wrap before 2^63 probes have failed; it is a natural number here.
* `intCmd k c`, `statusCmd k c`, `sliceCmd k c`, `mapCmd k c` are the command
  objects the redis library hands back for command `c` when it is the `k`-th
  command (counted from 0) issued in the execution. -/
structure Env where
  policy : Nat → Except GoError Duration
  intCmd : Nat → Command → IntCmd
  statusCmd : Nat → Command → StatusCmd
  sliceCmd : Nat → Command → StringSliceCmd
  mapCmd : Nat → Command → StringStringMapCmd

/-- The outcome (error part) of the `k`-th liveness probe of an execution in
which only `Ping` is issued. -/
def Env.probe (env : Env) (k : Nat) : Option GoError :=
  (env.statusCmd k Command.Ping).Result.2

/-- The state threaded through the code: the calls made so far, the number of
sessions opened so far and the number of commands issued so far. -/
structure World where
  trace : List Event
  sessions : Nat
  commands : Nat
deriving DecidableEq, Repr

/-- The world before the code runs. -/
def World.init : World := ⟨[], 0, 0⟩

/-- Append a call to the trace. -/
def World.record (w : World) (ev : Event) : World :=
  ⟨w.trace ++ [ev], w.sessions, w.commands⟩

/-- Issue one command on a session: one trace entry, one more command. -/
def World.issue (w : World) (session : Nat) (cmd : Command) (err : Option GoError) : World :=
  ⟨w.trace ++ [Event.command session cmd err], w.sessions, w.commands + 1⟩

/-! ## Collaborators -/

/-- The call `backoff.DefaultPolicy.Duration(attempt)`. -/
def backoffDuration (env : Env) (attempt : Nat) (w : World) :
    Except GoError Duration × World :=
  (env.policy attempt, w.record (Event.policyQuery attempt))

/-- The call `time.Sleep(d)`. -/
def timeSleep (d : Duration) (w : World) : World :=
  w.record (Event.sleep d)

/-- The call `log.Printf`, given the formatted text. -/
def logPrintf (line : String) (w : World) : World :=
  w.record (Event.logLine line)

/-- The library type `*redis.Client`: a session, known by its number. -/
structure redis.Client where
  session : Nat
deriving DecidableEq, Repr

/-- The call `redis.NewClient(opts)`: a fresh session. -/
def redis.NewClient (opts : Options) (w : World) : redis.Client × World :=
  (⟨w.sessions⟩, ⟨w.trace ++ [Event.newClient w.sessions opts], w.sessions + 1, w.commands⟩)

/-- The method `(*redis.Client).Del`. -/
def redis.Client.Del (env : Env) (c : redis.Client) (keys : List String) (w : World) :
    IntCmd × World :=
  let cmd := env.intCmd w.commands (Command.Del keys)
  (cmd, w.issue c.session (Command.Del keys) cmd.err)

/-- The method `(*redis.Client).HGetAllMap`. -/
def redis.Client.HGetAllMap (env : Env) (c : redis.Client) (key : String) (w : World) :
    StringStringMapCmd × World :=
  let cmd := env.mapCmd w.commands (Command.HGetAllMap key)
  (cmd, w.issue c.session (Command.HGetAllMap key) cmd.err)

/-- The method `(*redis.Client).HMSet`. -/
def redis.Client.HMSet (env : Env) (c : redis.Client) (key field value : String)
    (pairs : List String) (w : World) : StatusCmd × World :=
  let cmd := env.statusCmd w.commands (Command.HMSet key field value pairs)
  (cmd, w.issue c.session (Command.HMSet key field value pairs) cmd.err)

/-- The method `(*redis.Client).LPush`. -/
def redis.Client.LPush (env : Env) (c : redis.Client) (key : String) (values : List String)
    (w : World) : IntCmd × World :=
  let cmd := env.intCmd w.commands (Command.LPush key values)
  (cmd, w.issue c.session (Command.LPush key values) cmd.err)

/-- The method `(*redis.Client).LRange`. -/
def redis.Client.LRange (env : Env) (c : redis.Client) (key : String) (start stop : Int)
    (w : World) : StringSliceCmd × World :=
  let cmd := env.sliceCmd w.commands (Command.LRange key start stop)
  (cmd, w.issue c.session (Command.LRange key start stop) cmd.err)

/-- The method `(*redis.Client).LRem`. -/
def redis.Client.LRem (env : Env) (c : redis.Client) (key : String) (count : Int)
    (value : GoValue) (w : World) : IntCmd × World :=
  let cmd := env.intCmd w.commands (Command.LRem key count value)
  (cmd, w.issue c.session (Command.LRem key count value) cmd.err)

/-- The method `(*redis.Client).Ping`. -/
def redis.Client.Ping (env : Env) (c : redis.Client) (w : World) : StatusCmd × World :=
  let cmd := env.statusCmd w.commands Command.Ping
  (cmd, w.issue c.session Command.Ping cmd.err)

/-- The method `(*redis.Client).Set`. -/
def redis.Client.Set (env : Env) (c : redis.Client) (key : String) (value : GoValue)
    (expiration : Duration) (w : World) : StatusCmd × World :=
  let cmd := env.statusCmd w.commands (Command.Set key value expiration)
  (cmd, w.issue c.session (Command.Set key value expiration) cmd.err)

/-! ## redis.go -/

/-- The Go struct `redisClient`. -/
structure redisClient where
  client : redis.Client
deriving DecidableEq, Repr

/-- How the `for` loop of `NewRedisClient` (lines 37-60) is left. -/
inductive LoopExit where
  /-- The loop is still iterating (the fuel of the model ran out). -/
  | running
  /-- Line 40: `return nil, err` with the error of the policy. -/
  | policyErr (err : GoError)
  /-- Line 54: `break`, with the session held by the variable `client`. -/
  | connected (client : redis.Client)
deriving DecidableEq, Repr

/-- The `for` loop of `NewRedisClient` (lines 37-60). `fuel` bounds the number
of iterations executed; `attempt` is the Go variable of that name. -/
def connectLoop (env : Env) (addr : String) : Nat → Nat → World → LoopExit × World
  | 0, _, w => (LoopExit.running, w)
  | fuel + 1, attempt, w =>
    let r := backoffDuration env attempt w
    match r.1 with
    | Except.error err => (LoopExit.policyErr err, r.2)
    | Except.ok sleepTime =>
      let w1 := timeSleep sleepTime r.2
      let w2 := logPrintf ("connecting to redis server " ++ addr) w1
      let c := redis.NewClient ⟨addr, "", 0⟩ w2
      let p := redis.Client.Ping env c.1 c.2
      match p.1.Result.2 with
      | none => (LoopExit.connected c.1, p.2)
      | some err =>
        let w3 := logPrintf ("backing off because redis didn't respond to ping: " ++ err.msg) p.2
        connectLoop env addr fuel (attempt + 1) w3

/-- What a call of `NewRedisClient` has done after at most `fuel` loop
iterations: `outcome` is `none` while the call has not returned, and
`some (handle, err)` once it has returned the pair `(handle, err)`, where
`none` stands for Go's `nil`. -/
structure Run where
  outcome : Option (Option redisClient × Option GoError)
  world : World
deriving DecidableEq, Repr

/-- The function `NewRedisClient` (lines 33-69). -/
def NewRedisClient (env : Env) (addr : String) (fuel : Nat) : Run :=
  let l := connectLoop env addr fuel 0 World.init
  match l.1 with
  | LoopExit.running => ⟨none, l.2⟩
  | LoopExit.policyErr err => ⟨some (none, some err), l.2⟩
  | LoopExit.connected client =>
    let p := redis.Client.Ping env client l.2
    match p.1.Result.2 with
    | some err => ⟨some (none, some ⟨"unable to ping redis server: " ++ err.msg⟩), p.2⟩
    | none => ⟨some (some ⟨client⟩, none), p.2⟩

/-- The method `Delete` (lines 71-74). -/
def redisClient.Delete (env : Env) (rc : redisClient) (keys : List String) (w : World) :
    (Int × Option GoError) × World :=
  let cmd := redis.Client.Del env rc.client keys w
  (cmd.1.Result, cmd.2)

/-- The method `HGetAllMap` (lines 76-79). -/
def redisClient.HGetAllMap (env : Env) (rc : redisClient) (key : String) (w : World) :
    (List (String × String) × Option GoError) × World :=
  let cmd := redis.Client.HGetAllMap env rc.client key w
  (cmd.1.Result, cmd.2)

/-- The method `HMSet` (lines 81-84). -/
def redisClient.HMSet (env : Env) (rc : redisClient) (key field value : String)
    (pairs : List String) (w : World) : (String × Option GoError) × World :=
  let cmd := redis.Client.HMSet env rc.client key field value pairs w
  (cmd.1.Result, cmd.2)

/-- The method `LPush` (lines 86-89). -/
def redisClient.LPush (env : Env) (rc : redisClient) (key : String) (values : List String)
    (w : World) : (Int × Option GoError) × World :=
  let cmd := redis.Client.LPush env rc.client key values w
  (cmd.1.Result, cmd.2)

/-- The method `LRange` (lines 91-94). -/
def redisClient.LRange (env : Env) (rc : redisClient) (key : String) (start stop : Int)
    (w : World) : (List String × Option GoError) × World :=
  let cmd := redis.Client.LRange env rc.client key start stop w
  (cmd.1.Result, cmd.2)

/-- The method `LRem` (lines 96-99). -/
def redisClient.LRem (env : Env) (rc : redisClient) (key : String) (count : Int)
    (value : GoValue) (w : World) : (Int × Option GoError) × World :=
  let cmd := redis.Client.LRem env rc.client key count value w
  (cmd.1.Result, cmd.2)

/-- The method `Ping` (lines 101-104). -/
def redisClient.Ping (env : Env) (rc : redisClient) (w : World) :
    (String × Option GoError) × World :=
  let cmd := redis.Client.Ping env rc.client w
  (cmd.1.Result, cmd.2)

/-- The method `Set` (lines 106-109). -/
def redisClient.Set (env : Env) (rc : redisClient) (key : String) (value : GoValue)
    (expiration : Duration) (w : World) : (String × Option GoError) × World :=
  let cmd := redis.Client.Set env rc.client key value expiration w
  (cmd.1.Result, cmd.2)

/-! ## Observations on a trace -/

/-- Is the event a call of `redis.NewClient`? -/
def isNewClient : Event → Bool
  | Event.newClient _ _ => true
  | _ => false

/-- Is the event a command issued on a session? -/
def isCommand : Event → Bool
  | Event.command _ _ _ => true
  | _ => false

/-- Is the event a call of `time.Sleep`? -/
def isSleep : Event → Bool
  | Event.sleep _ => true
  | _ => false

/-- The number of sessions opened in a trace. -/
def sessionsOpened (t : List Event) : Nat := t.countP isNewClient

/-- The number of commands (here: liveness probes) issued in a trace. -/
def commandsIssued (t : List Event) : Nat := t.countP isCommand

/-- The attempt counts the policy was queried with, in order. -/
def policyQueries (t : List Event) : List Nat :=
  t.filterMap fun ev => match ev with
    | Event.policyQuery a => some a
    | _ => none

/-- The durations slept, in order. -/
def sleeps (t : List Event) : List Duration :=
  t.filterMap fun ev => match ev with
    | Event.sleep d => some d
    | _ => none

/-- The sleeps and the openings of sessions of a trace, in order. -/
def attemptSchedule (t : List Event) : List Event :=
  t.filter fun ev => isSleep ev || isNewClient ev

/-! ## The loop, one iteration at a time -/

/-- The loop started from a world with an empty trace. -/
def loopFrom (env : Env) (addr : String) (fuel a s p : Nat) : LoopExit × World :=
  connectLoop env addr fuel a ⟨[], s, p⟩

/-- Lines 61-68 of `NewRedisClient`, run on what the loop left behind. -/
def confirmFrom (env : Env) (l : LoopExit × World) : Run :=
  match l.1 with
  | LoopExit.running => ⟨none, l.2⟩
  | LoopExit.policyErr err => ⟨some (none, some err), l.2⟩
  | LoopExit.connected client =>
    let p := redis.Client.Ping env client l.2
    match p.1.Result.2 with
    | some err => ⟨some (none, some ⟨"unable to ping redis server: " ++ err.msg⟩), p.2⟩
    | none => ⟨some (some ⟨client⟩, none), p.2⟩

/-- The body of `NewRedisClient` entered with attempt counter `a`, in a world
with an empty trace where `s` sessions have been opened and `p` commands
issued. `NewRedisClient` is `runFrom` at `0 0 0`. -/
def runFrom (env : Env) (addr : String) (fuel a s p : Nat) : Run :=
  confirmFrom env (loopFrom env addr fuel a s p)

/-- The text logged before each connection attempt. -/
def connectingLine (addr : String) : String := "connecting to redis server " ++ addr

/-- The text logged after a failed probe. -/
def backingOffLine (e : GoError) : String :=
  "backing off because redis didn't respond to ping: " ++ e.msg

/-- The six calls of a loop iteration whose probe fails with `e`. -/
def failedIteration (addr : String) (a s : Nat) (d : Duration) (e : GoError) : List Event :=
  [Event.policyQuery a, Event.sleep d, Event.logLine (connectingLine addr),
   Event.newClient s ⟨addr, "", 0⟩, Event.command s Command.Ping (some e),
   Event.logLine (backingOffLine e)]

/-- The texts logged, in order. -/
def logLines (t : List Event) : List String :=
  t.filterMap fun ev => match ev with
    | Event.logLine l => some l
    | _ => none

/-- What the policy prescribes for the `m` connection attempts made from
attempt count `a` and session number `s` on: before the `i`-th of them, one
sleep of the duration the policy returns for `a + i`. -/
def expectedSchedule (env : Env) (addr : String) (a s m : Nat) : List Event :=
  (List.range m).flatMap fun i => match env.policy (a + i) with
    | Except.ok d => [Event.sleep d, Event.newClient (s + i) ⟨addr, "", 0⟩]
    | Except.error _ => []

/-! ## Sample environments -/

/-- An environment built from a policy and the outcomes of the probes. -/
def sampleEnv (policy : Nat → Except GoError Duration) (probe : Nat → Option GoError) : Env :=
  ⟨policy, fun _ _ => ⟨0, none⟩,
    fun k _ => match probe k with
      | none => ⟨"PONG", none⟩
      | some e => ⟨"", some e⟩,
    fun _ _ => ⟨[], none⟩, fun _ _ => ⟨[], none⟩⟩

/-- The store never answers; the policy allows two attempts. -/
def envDown : Env :=
  sampleEnv (fun n => if n < 2 then Except.ok (100 * (n + 1)) else Except.error ⟨"retries exhausted"⟩)
    (fun _ => some ⟨"connection refused"⟩)

/-- The store refuses the first probe and answers afterwards; the policy never gives up. -/
def envFlaky : Env :=
  sampleEnv (fun _ => Except.ok 50) (fun k => if k = 0 then some ⟨"connection refused"⟩ else none)

/-- The store answers the first probe and drops the connection afterwards; the
policy never gives up. -/
def envDrop : Env :=
  sampleEnv (fun _ => Except.ok 50) (fun k => if k = 0 then none else some ⟨"EOF"⟩)

/-! ## Lemmas -/

theorem connectLoop_frame (env : Env) (addr : String) (fuel : Nat) :
    ∀ (a : Nat) (w : World), connectLoop env addr fuel a w =
      ((loopFrom env addr fuel a w.sessions w.commands).1,
        ⟨w.trace ++ (loopFrom env addr fuel a w.sessions w.commands).2.trace,
          (loopFrom env addr fuel a w.sessions w.commands).2.sessions,
          (loopFrom env addr fuel a w.sessions w.commands).2.commands⟩) := by
  induction fuel with
  | zero => intro a w; simp [loopFrom, connectLoop]
  | succ fuel ih =>
    intro a w
    simp only [loopFrom, connectLoop, backoffDuration, World.record]
    cases hpol : env.policy a with
    | error e => simp
    | ok d =>
      simp only [timeSleep, logPrintf, World.record, redis.NewClient, redis.Client.Ping,
        World.issue, StatusCmd.Result]
      cases hpr : (env.statusCmd w.commands Command.Ping).err with
      | none => simp
      | some e =>
        simp only []
        rw [ih]
        conv_rhs => rw [ih]
        simp [loopFrom]

theorem loopFrom_zero (env : Env) (addr : String) (a s p : Nat) :
    loopFrom env addr 0 a s p = (LoopExit.running, ⟨[], s, p⟩) := rfl

theorem loopFrom_err (env : Env) (addr : String) (fuel a s p : Nat) (e : GoError)
    (h : env.policy a = Except.error e) :
    loopFrom env addr (fuel + 1) a s p
      = (LoopExit.policyErr e, ⟨[Event.policyQuery a], s, p⟩) := by
  simp [loopFrom, connectLoop, backoffDuration, World.record, h]

theorem loopFrom_ok (env : Env) (addr : String) (fuel a s p : Nat) (d : Duration)
    (h : env.policy a = Except.ok d) (hp : env.probe p = none) :
    loopFrom env addr (fuel + 1) a s p
      = (LoopExit.connected ⟨s⟩,
          ⟨[Event.policyQuery a, Event.sleep d,
            Event.logLine ("connecting to redis server " ++ addr),
            Event.newClient s ⟨addr, "", 0⟩, Event.command s Command.Ping none],
           s + 1, p + 1⟩) := by
  simp only [Env.probe, StatusCmd.Result] at hp
  simp [loopFrom, connectLoop, backoffDuration, World.record, h, timeSleep, logPrintf,
    redis.NewClient, redis.Client.Ping, World.issue, StatusCmd.Result, hp]

theorem loopFrom_fail (env : Env) (addr : String) (fuel a s p : Nat) (d : Duration)
    (e : GoError) (h : env.policy a = Except.ok d) (hp : env.probe p = some e) :
    loopFrom env addr (fuel + 1) a s p
      = ((loopFrom env addr fuel (a + 1) (s + 1) (p + 1)).1,
          ⟨Event.policyQuery a :: Event.sleep d ::
            Event.logLine ("connecting to redis server " ++ addr) ::
            Event.newClient s ⟨addr, "", 0⟩ :: Event.command s Command.Ping (some e) ::
            Event.logLine ("backing off because redis didn't respond to ping: " ++ e.msg) ::
            (loopFrom env addr fuel (a + 1) (s + 1) (p + 1)).2.trace,
           (loopFrom env addr fuel (a + 1) (s + 1) (p + 1)).2.sessions,
           (loopFrom env addr fuel (a + 1) (s + 1) (p + 1)).2.commands⟩) := by
  simp only [Env.probe, StatusCmd.Result] at hp
  have hstep : loopFrom env addr (fuel + 1) a s p
      = connectLoop env addr fuel (a + 1)
          ⟨[Event.policyQuery a, Event.sleep d,
            Event.logLine ("connecting to redis server " ++ addr),
            Event.newClient s ⟨addr, "", 0⟩, Event.command s Command.Ping (some e),
            Event.logLine ("backing off because redis didn't respond to ping: " ++ e.msg)],
           s + 1, p + 1⟩ := by
    simp [loopFrom, connectLoop, backoffDuration, World.record, h, timeSleep, logPrintf,
      redis.NewClient, redis.Client.Ping, World.issue, StatusCmd.Result, hp]
  rw [hstep, connectLoop_frame]
  simp

theorem NewRedisClient_eq_runFrom (env : Env) (addr : String) (fuel : Nat) :
    NewRedisClient env addr fuel = runFrom env addr fuel 0 0 0 := rfl

theorem runFrom_zero (env : Env) (addr : String) (a s p : Nat) :
    runFrom env addr 0 a s p = ⟨none, ⟨[], s, p⟩⟩ := rfl

theorem runFrom_err (env : Env) (addr : String) (fuel a s p : Nat) (e : GoError)
    (h : env.policy a = Except.error e) :
    runFrom env addr (fuel + 1) a s p
      = ⟨some (none, some e), ⟨[Event.policyQuery a], s, p⟩⟩ := by
  simp [runFrom, loopFrom_err env addr fuel a s p e h, confirmFrom]

theorem runFrom_live (env : Env) (addr : String) (fuel a s p : Nat) (d : Duration)
    (h : env.policy a = Except.ok d) (hp : env.probe p = none)
    (hc : env.probe (p + 1) = none) :
    runFrom env addr (fuel + 1) a s p
      = ⟨some (some ⟨⟨s⟩⟩, none),
          ⟨[Event.policyQuery a, Event.sleep d, Event.logLine (connectingLine addr),
            Event.newClient s ⟨addr, "", 0⟩, Event.command s Command.Ping none,
            Event.command s Command.Ping none], s + 1, p + 2⟩⟩ := by
  simp only [Env.probe, StatusCmd.Result] at hc
  simp [runFrom, loopFrom_ok env addr fuel a s p d h hp, confirmFrom, redis.Client.Ping,
    World.issue, StatusCmd.Result, hc, connectingLine]

theorem runFrom_dead (env : Env) (addr : String) (fuel a s p : Nat) (d : Duration)
    (e : GoError) (h : env.policy a = Except.ok d) (hp : env.probe p = none)
    (hc : env.probe (p + 1) = some e) :
    runFrom env addr (fuel + 1) a s p
      = ⟨some (none, some ⟨"unable to ping redis server: " ++ e.msg⟩),
          ⟨[Event.policyQuery a, Event.sleep d, Event.logLine (connectingLine addr),
            Event.newClient s ⟨addr, "", 0⟩, Event.command s Command.Ping none,
            Event.command s Command.Ping (some e)], s + 1, p + 2⟩⟩ := by
  simp only [Env.probe, StatusCmd.Result] at hc
  simp [runFrom, loopFrom_ok env addr fuel a s p d h hp, confirmFrom, redis.Client.Ping,
    World.issue, StatusCmd.Result, hc, connectingLine]

theorem confirmFrom_frame (env : Env) (ex : LoopExit) (pre t : List Event) (s p : Nat) :
    confirmFrom env (ex, ⟨pre ++ t, s, p⟩)
      = ⟨(confirmFrom env (ex, ⟨t, s, p⟩)).outcome,
          ⟨pre ++ (confirmFrom env (ex, ⟨t, s, p⟩)).world.trace,
            (confirmFrom env (ex, ⟨t, s, p⟩)).world.sessions,
            (confirmFrom env (ex, ⟨t, s, p⟩)).world.commands⟩⟩ := by
  cases ex with
  | running => simp [confirmFrom]
  | policyErr e => simp [confirmFrom]
  | connected c =>
    simp only [confirmFrom, redis.Client.Ping, World.issue, StatusCmd.Result]
    cases (env.statusCmd p Command.Ping).err <;> simp

theorem runFrom_fail (env : Env) (addr : String) (fuel a s p : Nat) (d : Duration)
    (e : GoError) (h : env.policy a = Except.ok d) (hp : env.probe p = some e) :
    runFrom env addr (fuel + 1) a s p
      = ⟨(runFrom env addr fuel (a + 1) (s + 1) (p + 1)).outcome,
          ⟨failedIteration addr a s d e
              ++ (runFrom env addr fuel (a + 1) (s + 1) (p + 1)).world.trace,
            (runFrom env addr fuel (a + 1) (s + 1) (p + 1)).world.sessions,
            (runFrom env addr fuel (a + 1) (s + 1) (p + 1)).world.commands⟩⟩ := by
  have hf := confirmFrom_frame env (loopFrom env addr fuel (a + 1) (s + 1) (p + 1)).1
    (failedIteration addr a s d e)
    (loopFrom env addr fuel (a + 1) (s + 1) (p + 1)).2.trace
    (loopFrom env addr fuel (a + 1) (s + 1) (p + 1)).2.sessions
    (loopFrom env addr fuel (a + 1) (s + 1) (p + 1)).2.commands
  simp only [runFrom, loopFrom_fail env addr fuel a s p d e h hp]
  exact hf

theorem sessionsOpened_append (t u : List Event) :
    sessionsOpened (t ++ u) = sessionsOpened t + sessionsOpened u := by
  simp [sessionsOpened]

theorem commandsIssued_append (t u : List Event) :
    commandsIssued (t ++ u) = commandsIssued t + commandsIssued u := by
  simp [commandsIssued]

theorem policyQueries_append (t u : List Event) :
    policyQueries (t ++ u) = policyQueries t ++ policyQueries u := by
  simp [policyQueries]

theorem sleeps_append (t u : List Event) : sleeps (t ++ u) = sleeps t ++ sleeps u := by
  simp [sleeps]

theorem attemptSchedule_append (t u : List Event) :
    attemptSchedule (t ++ u) = attemptSchedule t ++ attemptSchedule u := by
  simp [attemptSchedule]

/-- The three ways in which the body returns. -/
theorem runFrom_returns (env : Env) (addr : String) (fuel : Nat) :
    ∀ (a s p : Nat) (h : Option redisClient) (err : Option GoError),
      (runFrom env addr fuel a s p).outcome = some (h, err) →
      (∃ c pre, h = some ⟨⟨c⟩⟩ ∧ err = none ∧
          (runFrom env addr fuel a s p).world.trace
            = pre ++ [Event.newClient c ⟨addr, "", 0⟩, Event.command c Command.Ping none,
                Event.command c Command.Ping none] ∧
          sessionsOpened (runFrom env addr fuel a s p).world.trace + s = c + 1) ∨
      (∃ n e pre, h = none ∧ err = some e ∧ env.policy n = Except.error e ∧
          (runFrom env addr fuel a s p).world.trace = pre ++ [Event.policyQuery n]) ∨
      (∃ c e pre, h = none ∧ err = some ⟨"unable to ping redis server: " ++ e.msg⟩ ∧
          (runFrom env addr fuel a s p).world.trace
            = pre ++ [Event.newClient c ⟨addr, "", 0⟩, Event.command c Command.Ping none,
                Event.command c Command.Ping (some e)]) := by
  induction fuel with
  | zero => intro a s p h err hout; simp [runFrom_zero] at hout
  | succ fuel ih =>
    intro a s p h err hout
    cases hpol : env.policy a with
    | error e =>
      rw [runFrom_err env addr fuel a s p e hpol] at hout ⊢
      simp only [Option.some.injEq, Prod.mk.injEq] at hout
      refine Or.inr (Or.inl ⟨a, e, [], hout.1.symm, hout.2.symm, hpol, rfl⟩)
    | ok d =>
      cases hp : env.probe p with
      | none =>
        cases hc : env.probe (p + 1) with
        | none =>
          rw [runFrom_live env addr fuel a s p d hpol hp hc] at hout ⊢
          simp only [Option.some.injEq, Prod.mk.injEq] at hout
          refine Or.inl ⟨s, [Event.policyQuery a, Event.sleep d,
            Event.logLine (connectingLine addr)], hout.1.symm, hout.2.symm, rfl, ?_⟩
          simp [sessionsOpened, isNewClient, Nat.add_comm]
        | some e =>
          rw [runFrom_dead env addr fuel a s p d e hpol hp hc] at hout ⊢
          simp only [Option.some.injEq, Prod.mk.injEq] at hout
          refine Or.inr (Or.inr ⟨s, e, [Event.policyQuery a, Event.sleep d,
            Event.logLine (connectingLine addr)], hout.1.symm, hout.2.symm, rfl⟩)
      | some e =>
        rw [runFrom_fail env addr fuel a s p d e hpol hp] at hout ⊢
        simp only at hout
        rcases ih (a + 1) (s + 1) (p + 1) h err hout with
          ⟨c, pre, h1, h2, h3, h4⟩ | ⟨n, e', pre, h1, h2, h3, h4⟩ | ⟨c, e', pre, h1, h2, h3⟩
        · refine Or.inl ⟨c, failedIteration addr a s d e ++ pre, h1, h2, ?_, ?_⟩
          · simp only [h3, List.append_assoc]
          · simp only [sessionsOpened_append]
            have : sessionsOpened (failedIteration addr a s d e) = 1 := rfl
            omega
        · refine Or.inr (Or.inl ⟨n, e', failedIteration addr a s d e ++ pre, h1, h2, h3, ?_⟩)
          simp only [h4, List.append_assoc]
        · refine Or.inr (Or.inr ⟨c, e', failedIteration addr a s d e ++ pre, h1, h2, ?_⟩)
          simp only [h3, List.append_assoc]

/-- Unrolling `k` iterations whose probes all fail. -/
theorem runFrom_fails (env : Env) (addr : String) (k : Nat) :
    ∀ (a s p : Nat), (∀ i, i < k → ∃ d, env.policy (a + i) = Except.ok d) →
      (∀ i, i < k → env.probe (p + i) ≠ none) →
      ∃ pre, sessionsOpened pre = k ∧ commandsIssued pre = k ∧
        policyQueries pre = List.range' a k ∧ (sleeps pre).length = k ∧
        ∀ fuel, runFrom env addr (fuel + k) a s p
          = ⟨(runFrom env addr fuel (a + k) (s + k) (p + k)).outcome,
              ⟨pre ++ (runFrom env addr fuel (a + k) (s + k) (p + k)).world.trace,
                (runFrom env addr fuel (a + k) (s + k) (p + k)).world.sessions,
                (runFrom env addr fuel (a + k) (s + k) (p + k)).world.commands⟩⟩ := by
  induction k with
  | zero => intro a s p _ _; exact ⟨[], rfl, rfl, rfl, rfl, fun fuel => by simp⟩
  | succ k ih =>
    intro a s p hpol hpr
    obtain ⟨d, hd⟩ := hpol 0 (Nat.succ_pos k)
    have hp0 := hpr 0 (Nat.succ_pos k)
    simp only [Nat.add_zero] at hd hp0
    obtain ⟨e, he⟩ := Option.ne_none_iff_exists'.mp hp0
    obtain ⟨pre, h1, h2, h3, h4, h5⟩ := ih (a + 1) (s + 1) (p + 1)
      (fun i hi => by
        have := hpol (i + 1) (Nat.succ_lt_succ hi)
        rwa [show a + (i + 1) = a + 1 + i by omega] at this)
      (fun i hi => by
        have := hpr (i + 1) (Nat.succ_lt_succ hi)
        rwa [show p + (i + 1) = p + 1 + i by omega] at this)
    refine ⟨failedIteration addr a s d e ++ pre, ?_, ?_, ?_, ?_, ?_⟩
    · rw [sessionsOpened_append, h1]
      have : sessionsOpened (failedIteration addr a s d e) = 1 := rfl
      omega
    · rw [commandsIssued_append, h2]
      have : commandsIssued (failedIteration addr a s d e) = 1 := rfl
      omega
    · rw [policyQueries_append, h3, List.range'_succ]
      rfl
    · rw [sleeps_append, List.length_append, h4]
      have : (sleeps (failedIteration addr a s d e)).length = 1 := rfl
      omega
    · intro fuel
      rw [show fuel + (k + 1) = (fuel + k) + 1 by omega,
        runFrom_fail env addr (fuel + k) a s p d e hd he, h5 fuel]
      simp only [show a + 1 + k = a + (k + 1) by omega, show s + 1 + k = s + (k + 1) by omega,
        show p + 1 + k = p + (k + 1) by omega, List.append_assoc]

/-- Once the body has returned, more fuel changes nothing. -/
theorem runFrom_stable (env : Env) (addr : String) (fuel : Nat) :
    ∀ (a s p : Nat), (runFrom env addr fuel a s p).outcome ≠ none →
      runFrom env addr (fuel + 1) a s p = runFrom env addr fuel a s p := by
  induction fuel with
  | zero => intro a s p h; simp [runFrom_zero] at h
  | succ fuel ih =>
    intro a s p h
    cases hpol : env.policy a with
    | error e =>
      rw [runFrom_err env addr fuel a s p e hpol, runFrom_err env addr (fuel + 1) a s p e hpol]
    | ok d =>
      cases hp : env.probe p with
      | none =>
        cases hc : env.probe (p + 1) with
        | none =>
          rw [runFrom_live env addr fuel a s p d hpol hp hc,
            runFrom_live env addr (fuel + 1) a s p d hpol hp hc]
        | some e =>
          rw [runFrom_dead env addr fuel a s p d e hpol hp hc,
            runFrom_dead env addr (fuel + 1) a s p d e hpol hp hc]
      | some e =>
        rw [runFrom_fail env addr fuel a s p d e hpol hp] at h
        rw [runFrom_fail env addr fuel a s p d e hpol hp,
          runFrom_fail env addr (fuel + 1) a s p d e hpol hp, ih (a + 1) (s + 1) (p + 1) h]

theorem runFrom_stable_le (env : Env) (addr : String) (fuel a s p : Nat)
    (h : (runFrom env addr fuel a s p).outcome ≠ none) :
    ∀ more, runFrom env addr (fuel + more) a s p = runFrom env addr fuel a s p := by
  intro more
  induction more with
  | zero => rfl
  | succ more ih =>
    rw [← Nat.add_assoc, runFrom_stable env addr (fuel + more) a s p (by rw [ih]; exact h), ih]

/-- If the policy gives up at attempt `a + j`, the body returns within `j + 1`
iterations, having done a bounded amount of work. -/
theorem runFrom_bounded (env : Env) (addr : String) (j : Nat) :
    ∀ (a s p fuel : Nat) (e : GoError), env.policy (a + j) = Except.error e → j < fuel →
      (runFrom env addr fuel a s p).outcome ≠ none ∧
      (policyQueries (runFrom env addr fuel a s p).world.trace).length ≤ j + 1 ∧
      sessionsOpened (runFrom env addr fuel a s p).world.trace ≤ j ∧
      commandsIssued (runFrom env addr fuel a s p).world.trace ≤ j + 1 := by
  induction j with
  | zero =>
    intro a s p fuel e herr hf
    obtain ⟨f, rfl⟩ : ∃ f, fuel = f + 1 := ⟨fuel - 1, by omega⟩
    rw [Nat.add_zero] at herr
    rw [runFrom_err env addr f a s p e herr]
    simp [policyQueries, sessionsOpened, commandsIssued, isNewClient, isCommand]
  | succ j ih =>
    intro a s p fuel e herr hf
    obtain ⟨f, rfl⟩ : ∃ f, fuel = f + 1 := ⟨fuel - 1, by omega⟩
    cases hpol : env.policy a with
    | error e' =>
      rw [runFrom_err env addr f a s p e' hpol]
      simp [policyQueries, sessionsOpened, commandsIssued, isNewClient, isCommand]
    | ok d =>
      cases hp : env.probe p with
      | none =>
        cases hc : env.probe (p + 1) with
        | none =>
          rw [runFrom_live env addr f a s p d hpol hp hc]
          simp [policyQueries, sessionsOpened, commandsIssued, isNewClient, isCommand]
        | some e' =>
          rw [runFrom_dead env addr f a s p d e' hpol hp hc]
          simp [policyQueries, sessionsOpened, commandsIssued, isNewClient, isCommand]
      | some e' =>
        rw [runFrom_fail env addr f a s p d e' hpol hp]
        have herr' : env.policy (a + 1 + j) = Except.error e := by
          rwa [show a + 1 + j = a + (j + 1) by omega]
        obtain ⟨h1, h2, h3, h4⟩ := ih (a + 1) (s + 1) (p + 1) f e herr' (by omega)
        refine ⟨h1, ?_, ?_, ?_⟩
        · simp only [policyQueries_append, List.length_append]
          have : (policyQueries (failedIteration addr a s d e')).length = 1 := rfl
          omega
        · simp only [sessionsOpened_append]
          have : sessionsOpened (failedIteration addr a s d e') = 1 := rfl
          omega
        · simp only [commandsIssued_append]
          have : commandsIssued (failedIteration addr a s d e') = 1 := rfl
          omega

theorem expectedSchedule_succ (env : Env) (addr : String) (a s m : Nat) :
    expectedSchedule env addr a s (m + 1)
      = (match env.policy a with
          | Except.ok d => [Event.sleep d, Event.newClient s ⟨addr, "", 0⟩]
          | Except.error _ => []) ++ expectedSchedule env addr (a + 1) (s + 1) m := by
  simp only [expectedSchedule, List.range_succ_eq_map, List.flatMap_cons, List.flatMap_map,
    Nat.add_zero]
  congr 1
  apply List.flatMap_congr
  intro i _
  simp only [Function.comp, Nat.succ_eq_add_one]
  rw [show a + (i + 1) = a + 1 + i by omega, show s + (i + 1) = s + 1 + i by omega]

/-- The sleeps of the body are the ones the policy prescribes, one before each
session, and the policy is queried for consecutive attempt counts. -/
theorem runFrom_schedule (env : Env) (addr : String) (fuel : Nat) :
    ∀ (a s p : Nat),
      (∀ i, i < sessionsOpened (runFrom env addr fuel a s p).world.trace →
        ∃ d, env.policy (a + i) = Except.ok d) ∧
      (sleeps (runFrom env addr fuel a s p).world.trace).map
          (fun d => (Except.ok d : Except GoError Duration))
        = (List.range (sessionsOpened (runFrom env addr fuel a s p).world.trace)).map
            (fun i => env.policy (a + i)) ∧
      attemptSchedule (runFrom env addr fuel a s p).world.trace
        = expectedSchedule env addr a s
            (sessionsOpened (runFrom env addr fuel a s p).world.trace) ∧
      policyQueries (runFrom env addr fuel a s p).world.trace
        = List.range' a (policyQueries (runFrom env addr fuel a s p).world.trace).length ∧
      sessionsOpened (runFrom env addr fuel a s p).world.trace
        ≤ (policyQueries (runFrom env addr fuel a s p).world.trace).length ∧
      (policyQueries (runFrom env addr fuel a s p).world.trace).length
        ≤ sessionsOpened (runFrom env addr fuel a s p).world.trace + 1 := by
  induction fuel with
  | zero =>
    intro a s p
    simp [runFrom_zero, sessionsOpened, sleeps, attemptSchedule, expectedSchedule, policyQueries]
  | succ fuel ih =>
    intro a s p
    cases hpol : env.policy a with
    | error e =>
      rw [runFrom_err env addr fuel a s p e hpol]
      simp [sessionsOpened, sleeps, attemptSchedule, expectedSchedule, policyQueries,
        isNewClient, isSleep, List.range'_succ]
    | ok d =>
      cases hp : env.probe p with
      | none =>
        cases hc : env.probe (p + 1) with
        | none =>
          rw [runFrom_live env addr fuel a s p d hpol hp hc]
          simp [sessionsOpened, sleeps, attemptSchedule, expectedSchedule, policyQueries,
            isNewClient, isSleep, List.range'_succ, List.range_succ_eq_map, hpol]
        | some e =>
          rw [runFrom_dead env addr fuel a s p d e hpol hp hc]
          simp [sessionsOpened, sleeps, attemptSchedule, expectedSchedule, policyQueries,
            isNewClient, isSleep, List.range'_succ, List.range_succ_eq_map, hpol]
      | some e =>
        rw [runFrom_fail env addr fuel a s p d e hpol hp]
        obtain ⟨h1, h2, h3, h4, h5, h6⟩ := ih (a + 1) (s + 1) (p + 1)
        have hm : sessionsOpened (failedIteration addr a s d e
            ++ (runFrom env addr fuel (a + 1) (s + 1) (p + 1)).world.trace)
            = sessionsOpened (runFrom env addr fuel (a + 1) (s + 1) (p + 1)).world.trace + 1 := by
          rw [sessionsOpened_append]
          have : sessionsOpened (failedIteration addr a s d e) = 1 := rfl
          omega
        have hq : (policyQueries (failedIteration addr a s d e
            ++ (runFrom env addr fuel (a + 1) (s + 1) (p + 1)).world.trace)).length
            = (policyQueries (runFrom env addr fuel (a + 1) (s + 1) (p + 1)).world.trace).length
              + 1 := by
          rw [policyQueries_append, List.length_append]
          have : (policyQueries (failedIteration addr a s d e)).length = 1 := rfl
          omega
        simp only [hm, hq]
        refine ⟨?_, ?_, ?_, ?_, by omega, by omega⟩
        · intro i hi
          rcases i with _ | i
          · exact ⟨d, hpol⟩
          · have := h1 i (by omega)
            rwa [show a + 1 + i = a + (i + 1) by omega] at this
        · rw [sleeps_append, List.map_append, h2, List.range_succ_eq_map, List.map_cons,
            List.map_map]
          have : sleeps (failedIteration addr a s d e) = [d] := rfl
          rw [this]
          simp only [List.map_cons, List.map_nil, List.singleton_append, Nat.add_zero, hpol,
            List.cons.injEq, true_and]
          apply List.map_congr_left
          intro i _
          simp only [Function.comp, Nat.succ_eq_add_one]
          rw [show a + 1 + i = a + (i + 1) by omega]
        · rw [attemptSchedule_append, h3, expectedSchedule_succ, hpol]
          rfl
        · rw [policyQueries_append, List.range'_succ]
          have : policyQueries (failedIteration addr a s d e) = [a] := rfl
          rw [this, List.singleton_append, ← h4]

theorem runFrom_head (env : Env) (addr : String) (fuel a s p : Nat) (l : String) :
    (runFrom env addr fuel a s p).world.trace[0]? ≠ some (Event.logLine l) := by
  cases fuel with
  | zero => simp [runFrom_zero]
  | succ fuel =>
    cases hpol : env.policy a with
    | error e => simp [runFrom_err env addr fuel a s p e hpol]
    | ok d =>
      cases hp : env.probe p with
      | none =>
        cases hc : env.probe (p + 1) with
        | none => simp [runFrom_live env addr fuel a s p d hpol hp hc]
        | some e => simp [runFrom_dead env addr fuel a s p d e hpol hp hc]
      | some e => simp [runFrom_fail env addr fuel a s p d e hpol hp, failedIteration]

/-- Every probe that follows the opening of a session and fails is preceded by
the line that names the address and followed by one line that carries the error. -/
theorem runFrom_failure_logged (env : Env) (addr : String) (fuel : Nat) :
    ∀ (a s p i c : Nat) (o : Options) (e : GoError),
      (runFrom env addr fuel a s p).world.trace[i]? = some (Event.newClient c o) →
      (runFrom env addr fuel a s p).world.trace[i + 1]?
        = some (Event.command c Command.Ping (some e)) →
      (runFrom env addr fuel a s p).world.trace[i + 2]?
        = some (Event.logLine (backingOffLine e)) ∧
      (∀ l, (runFrom env addr fuel a s p).world.trace[i + 3]? ≠ some (Event.logLine l)) ∧
      1 ≤ i ∧
      (runFrom env addr fuel a s p).world.trace[i - 1]?
        = some (Event.logLine (connectingLine addr)) := by
  induction fuel with
  | zero => intro a s p i c o e h; simp [runFrom_zero] at h
  | succ fuel ih =>
    intro a s p i c o e
    cases hpol : env.policy a with
    | error e' =>
      rw [runFrom_err env addr fuel a s p e' hpol]
      intro h
      rcases i with _ | i <;> simp at h
    | ok d =>
      cases hp : env.probe p with
      | none =>
        cases hc : env.probe (p + 1) with
        | none =>
          rw [runFrom_live env addr fuel a s p d hpol hp hc]
          intro h h'
          rcases i with _ | _ | _ | _ | _ | _ | i <;> simp at h h'
        | some e' =>
          rw [runFrom_dead env addr fuel a s p d e' hpol hp hc]
          intro h h'
          rcases i with _ | _ | _ | _ | _ | _ | i <;> simp at h h'
      | some e' =>
        rw [runFrom_fail env addr fuel a s p d e' hpol hp]
        intro h h'
        rcases i with _ | _ | _ | _ | _ | _ | i
        · simp [failedIteration] at h
        · simp [failedIteration] at h
        · simp [failedIteration] at h
        · simp only [failedIteration, List.cons_append, List.nil_append,
            List.getElem?_cons_succ, List.getElem?_cons_zero, Option.some.injEq,
            Event.command.injEq, true_and] at h'
          have hhead := runFrom_head env addr fuel (a + 1) (s + 1) (p + 1)
          simp [failedIteration, h'.2, hhead]
        · simp [failedIteration] at h
        · simp [failedIteration] at h
        · simp only [failedIteration, List.cons_append, List.nil_append,
            List.getElem?_cons_succ] at h h' ⊢
          obtain ⟨g1, g2, g3, g4⟩ := ih (a + 1) (s + 1) (p + 1) i c o e h h'
          refine ⟨g1, g2, by omega, ?_⟩
          obtain ⟨j, rfl⟩ : ∃ j, i = j + 1 := ⟨i - 1, by omega⟩
          simpa using g4

theorem runFrom_options (env : Env) (addr : String) (fuel : Nat) :
    ∀ (a s p c : Nat) (o : Options),
      Event.newClient c o ∈ (runFrom env addr fuel a s p).world.trace → o = ⟨addr, "", 0⟩ := by
  induction fuel with
  | zero => intro a s p c o h; simp [runFrom_zero] at h
  | succ fuel ih =>
    intro a s p c o
    cases hpol : env.policy a with
    | error e =>
      rw [runFrom_err env addr fuel a s p e hpol]
      intro h
      simp at h
    | ok d =>
      cases hp : env.probe p with
      | none =>
        cases hc : env.probe (p + 1) with
        | none =>
          rw [runFrom_live env addr fuel a s p d hpol hp hc]
          intro h
          simp at h
          exact h.2
        | some e =>
          rw [runFrom_dead env addr fuel a s p d e hpol hp hc]
          intro h
          simp at h
          exact h.2
      | some e =>
        rw [runFrom_fail env addr fuel a s p d e hpol hp]
        intro h
        simp only [failedIteration, List.cons_append, List.nil_append, List.mem_cons,
          reduceCtorEq, false_or, Event.newClient.injEq] at h
        rcases h with h | h
        · exact h.2
        · exact ih (a + 1) (s + 1) (p + 1) c o h

/-! ## The claims -/

/-- C1: if `NewRedisClient` returns a non-nil handle, then the error is nil,
the session wrapped by the handle is the last one opened (the trace ends with
its opening, the in-loop probe and the confirmation probe, and its number is
the number of sessions opened minus one), and both probes, issued on that very
session, succeeded. -/
theorem newRedisClient_handle_passed_probes (env : Env) (addr : String) (fuel : Nat)
    (h : redisClient) (err : Option GoError)
    (hret : (NewRedisClient env addr fuel).outcome = some (some h, err)) :
    err = none ∧
    sessionsOpened (NewRedisClient env addr fuel).world.trace = h.client.session + 1 ∧
    ∃ pre, (NewRedisClient env addr fuel).world.trace
      = pre ++ [Event.newClient h.client.session ⟨addr, "", 0⟩,
          Event.command h.client.session Command.Ping none,
          Event.command h.client.session Command.Ping none] := by
  rw [NewRedisClient_eq_runFrom] at hret ⊢
  rcases runFrom_returns env addr fuel 0 0 0 (some h) err hret with
    ⟨c, pre, h1, h2, h3, h4⟩ | ⟨n, e, pre, h1, _⟩ | ⟨c, e, pre, h1, _⟩
  · simp only [Option.some.injEq] at h1
    subst h1
    exact ⟨h2, by simpa using h4, pre, h3⟩
  · simp at h1
  · simp at h1

theorem newRedisClient_handle_passed_probes_witness :
    (NewRedisClient envFlaky "localhost:6379" 2).outcome = some (some ⟨⟨1⟩⟩, none) ∧
    sessionsOpened (NewRedisClient envFlaky "localhost:6379" 2).world.trace = 2 :=
  ⟨rfl, (newRedisClient_handle_passed_probes envFlaky "localhost:6379" 2 ⟨⟨1⟩⟩ none rfl).2.1⟩

/-- C2: if the policy returns durations for the attempt counts below `n`, the
first `n` probes fail and the policy returns the error `e` for `n`, then
`NewRedisClient` returns a nil handle and the error `e` itself; the query of
the policy for `n` is the last call it makes (no sleep, no session, no probe
after it), and over the whole call exactly `n` sessions are opened, `n` probes
issued and `n` sleeps performed, the policy having been queried for
`0, 1, ..., n`. -/
theorem newRedisClient_policy_exhausted (env : Env) (addr : String) (n : Nat) (e : GoError)
    (hpol : ∀ i, i < n → ∃ d, env.policy i = Except.ok d)
    (hfail : ∀ i, i < n → env.probe i ≠ none)
    (herr : env.policy n = Except.error e) (fuel : Nat) (hfuel : n < fuel) :
    (NewRedisClient env addr fuel).outcome = some (none, some e) ∧
    (∃ pre, (NewRedisClient env addr fuel).world.trace = pre ++ [Event.policyQuery n]) ∧
    policyQueries (NewRedisClient env addr fuel).world.trace = List.range (n + 1) ∧
    sessionsOpened (NewRedisClient env addr fuel).world.trace = n ∧
    commandsIssued (NewRedisClient env addr fuel).world.trace = n ∧
    (sleeps (NewRedisClient env addr fuel).world.trace).length = n := by
  obtain ⟨f, rfl⟩ : ∃ f, fuel = f + 1 + n := ⟨fuel - n - 1, by omega⟩
  obtain ⟨pre, h1, h2, h3, h4, h5⟩ := runFrom_fails env addr n 0 0 0
    (fun i hi => by simpa using hpol i hi) (fun i hi => by simpa using hfail i hi)
  have herr' : env.policy (0 + n) = Except.error e := by simpa using herr
  rw [NewRedisClient_eq_runFrom, h5 (f + 1), runFrom_err env addr f (0 + n) (0 + n) (0 + n) e herr']
  refine ⟨rfl, ⟨pre, by simp⟩, ?_, ?_, ?_, ?_⟩
  · simp only [policyQueries_append, h3]
    rw [List.range_eq_range', List.range'_concat]
    simp [policyQueries]
  · simp only [sessionsOpened_append, h1]; rfl
  · simp only [commandsIssued_append, h2]; rfl
  · simp only [sleeps_append, List.length_append, h4]; rfl

theorem newRedisClient_policy_exhausted_witness :
    envDown.policy 2 = Except.error ⟨"retries exhausted"⟩ ∧
    (NewRedisClient envDown "localhost:6379" 5).outcome
      = some (none, some ⟨"retries exhausted"⟩) ∧
    sessionsOpened (NewRedisClient envDown "localhost:6379" 5).world.trace = 2 :=
  have h := newRedisClient_policy_exhausted envDown "localhost:6379" 2 ⟨"retries exhausted"⟩
    (fun i hi => by interval_cases i <;> exact ⟨_, rfl⟩)
    (fun i _ => by simp [Env.probe, envDown, sampleEnv, StatusCmd.Result])
    rfl 5 (by decide)
  ⟨rfl, h.1, h.2.2.2.1⟩

/-- C3: if the policy returns durations for the attempt counts `0..k`, the
first `k` in-loop probes fail, the next in-loop probe succeeds and the
confirmation probe fails with `e`, then `NewRedisClient` returns a nil handle
and an error whose message is "unable to ping redis server: " followed by the
message of `e`; the failed confirmation probe is the last call it makes, so
that over the whole call the policy is queried for `0..k` only, and `k + 1`
sleeps, `k + 1` sessions and `k + 2` probes are all there is. -/
theorem newRedisClient_verification_failed (env : Env) (addr : String) (k : Nat) (e : GoError)
    (hpol : ∀ i, i ≤ k → ∃ d, env.policy i = Except.ok d)
    (hfail : ∀ i, i < k → env.probe i ≠ none)
    (hlive : env.probe k = none) (hconf : env.probe (k + 1) = some e)
    (fuel : Nat) (hfuel : k < fuel) :
    (NewRedisClient env addr fuel).outcome
      = some (none, some ⟨"unable to ping redis server: " ++ e.msg⟩) ∧
    (∃ pre, (NewRedisClient env addr fuel).world.trace
      = pre ++ [Event.command k Command.Ping none, Event.command k Command.Ping (some e)]) ∧
    policyQueries (NewRedisClient env addr fuel).world.trace = List.range (k + 1) ∧
    (sleeps (NewRedisClient env addr fuel).world.trace).length = k + 1 ∧
    sessionsOpened (NewRedisClient env addr fuel).world.trace = k + 1 ∧
    commandsIssued (NewRedisClient env addr fuel).world.trace = k + 2 := by
  obtain ⟨f, rfl⟩ : ∃ f, fuel = f + 1 + k := ⟨fuel - k - 1, by omega⟩
  obtain ⟨pre, h1, h2, h3, h4, h5⟩ := runFrom_fails env addr k 0 0 0
    (fun i hi => by simpa using hpol i (Nat.le_of_lt hi)) (fun i hi => by simpa using hfail i hi)
  obtain ⟨d, hd⟩ := hpol k (Nat.le_refl k)
  have hd' : env.policy (0 + k) = Except.ok d := by simpa using hd
  have hlive' : env.probe (0 + k) = none := by simpa using hlive
  have hconf' : env.probe (0 + k + 1) = some e := by simpa using hconf
  rw [NewRedisClient_eq_runFrom, h5 (f + 1),
    runFrom_dead env addr f (0 + k) (0 + k) (0 + k) d e hd' hlive' hconf']
  refine ⟨rfl, ⟨pre ++ [Event.policyQuery (0 + k), Event.sleep d,
    Event.logLine (connectingLine addr), Event.newClient (0 + k) ⟨addr, "", 0⟩], by simp⟩,
    ?_, ?_, ?_, ?_⟩
  · simp only [policyQueries_append, h3]
    rw [List.range_eq_range', List.range'_concat]
    simp [policyQueries]
  · simp only [sleeps_append, List.length_append, h4]; rfl
  · simp only [sessionsOpened_append, h1]; rfl
  · simp only [commandsIssued_append, h2]; rfl

theorem newRedisClient_verification_failed_witness :
    envDrop.probe 0 = none ∧ envDrop.probe 1 = some ⟨"EOF"⟩ ∧
    (NewRedisClient envDrop "localhost:6379" 3).outcome
      = some (none, some ⟨"unable to ping redis server: EOF"⟩) :=
  have h := newRedisClient_verification_failed envDrop "localhost:6379" 0 ⟨"EOF"⟩
    (fun _ _ => ⟨50, rfl⟩) (fun i hi => absurd hi (Nat.not_lt_zero i)) rfl rfl 3 (by decide)
  ⟨rfl, rfl, h.1⟩

/-- C4: if the policy returns durations for the attempt counts `0..k`, the
first `k` in-loop probes fail, the next in-loop probe succeeds and the
confirmation probe succeeds, then `NewRedisClient` returns a non-nil handle
(wrapping session `k`, the last one opened) and a nil error. -/
theorem newRedisClient_connects (env : Env) (addr : String) (k : Nat)
    (hpol : ∀ i, i ≤ k → ∃ d, env.policy i = Except.ok d)
    (hfail : ∀ i, i < k → env.probe i ≠ none)
    (hlive : env.probe k = none) (hconf : env.probe (k + 1) = none)
    (fuel : Nat) (hfuel : k < fuel) :
    (NewRedisClient env addr fuel).outcome = some (some ⟨⟨k⟩⟩, none) ∧
    sessionsOpened (NewRedisClient env addr fuel).world.trace = k + 1 := by
  obtain ⟨f, rfl⟩ : ∃ f, fuel = f + 1 + k := ⟨fuel - k - 1, by omega⟩
  obtain ⟨pre, h1, h2, h3, h4, h5⟩ := runFrom_fails env addr k 0 0 0
    (fun i hi => by simpa using hpol i (Nat.le_of_lt hi)) (fun i hi => by simpa using hfail i hi)
  obtain ⟨d, hd⟩ := hpol k (Nat.le_refl k)
  have hd' : env.policy (0 + k) = Except.ok d := by simpa using hd
  have hlive' : env.probe (0 + k) = none := by simpa using hlive
  have hconf' : env.probe (0 + k + 1) = none := by simpa using hconf
  rw [NewRedisClient_eq_runFrom, h5 (f + 1),
    runFrom_live env addr f (0 + k) (0 + k) (0 + k) d hd' hlive' hconf']
  refine ⟨by simp, ?_⟩
  simp only [sessionsOpened_append, h1]; rfl

theorem newRedisClient_connects_witness :
    envFlaky.probe 0 ≠ none ∧ envFlaky.probe 1 = none ∧ envFlaky.probe 2 = none ∧
    (NewRedisClient envFlaky "localhost:6379" 4).outcome = some (some ⟨⟨1⟩⟩, none) :=
  have hfail : ∀ i, i < 1 → envFlaky.probe i ≠ none := fun i hi => by
    interval_cases i
    simp [Env.probe, envFlaky, sampleEnv, StatusCmd.Result]
  have h := newRedisClient_connects envFlaky "localhost:6379" 1
    (fun _ _ => ⟨50, rfl⟩) hfail rfl rfl 4 (by decide)
  ⟨hfail 0 (by decide), rfl, rfl, h.1⟩

/-- C5: in every run of `NewRedisClient` (returned or still looping), with `m`
the number of sessions opened so far: the policy returned a duration for each
of `0, ..., m-1`; the sleeps performed are exactly `p(0), ..., p(m-1)`; sleeps
and openings of sessions alternate, the `i`-th session being preceded by the
one sleep of duration `p(i)`; and the policy was queried for consecutive
attempt counts from 0, `m` or `m + 1` of them. -/
theorem newRedisClient_sleeps_follow_policy (env : Env) (addr : String) (fuel : Nat) :
    (∀ i, i < sessionsOpened (NewRedisClient env addr fuel).world.trace →
      ∃ d, env.policy i = Except.ok d) ∧
    (sleeps (NewRedisClient env addr fuel).world.trace).map
        (fun d => (Except.ok d : Except GoError Duration))
      = (List.range (sessionsOpened (NewRedisClient env addr fuel).world.trace)).map
          env.policy ∧
    attemptSchedule (NewRedisClient env addr fuel).world.trace
      = (List.range (sessionsOpened (NewRedisClient env addr fuel).world.trace)).flatMap
          (fun i => match env.policy i with
            | Except.ok d => [Event.sleep d, Event.newClient i ⟨addr, "", 0⟩]
            | Except.error _ => []) ∧
    policyQueries (NewRedisClient env addr fuel).world.trace
      = List.range (policyQueries (NewRedisClient env addr fuel).world.trace).length ∧
    sessionsOpened (NewRedisClient env addr fuel).world.trace
      ≤ (policyQueries (NewRedisClient env addr fuel).world.trace).length ∧
    (policyQueries (NewRedisClient env addr fuel).world.trace).length
      ≤ sessionsOpened (NewRedisClient env addr fuel).world.trace + 1 := by
  obtain ⟨h1, h2, h3, h4, h5, h6⟩ := runFrom_schedule env addr fuel 0 0 0
  rw [NewRedisClient_eq_runFrom]
  refine ⟨fun i hi => by simpa using h1 i hi, ?_, ?_, ?_, h5, h6⟩
  · rw [h2]
    apply List.map_congr_left
    intro i _
    rw [Nat.zero_add]
  · rw [h3, expectedSchedule]
    apply List.flatMap_congr
    intro i _
    simp only [Nat.zero_add]
  · rw [List.range_eq_range']
    exact h4

/-- C6, as the code has it: whenever `NewRedisClient` returns, one of three
things happened. Either it returns a handle and a nil error, the last calls
being the opening of the session of the handle and two successful probes on
it; or it returns a nil handle and the error the policy returned for the
attempt count it was last queried with; or it returns a nil handle and the
error "unable to ping redis server: ..." because the confirmation probe, issued
right after a successful in-loop probe on the same session, failed. -/
theorem newRedisClient_returns_three_ways (env : Env) (addr : String) (fuel : Nat)
    (h : Option redisClient) (err : Option GoError)
    (hret : (NewRedisClient env addr fuel).outcome = some (h, err)) :
    (∃ c pre, h = some ⟨⟨c⟩⟩ ∧ err = none ∧
        (NewRedisClient env addr fuel).world.trace
          = pre ++ [Event.newClient c ⟨addr, "", 0⟩, Event.command c Command.Ping none,
              Event.command c Command.Ping none]) ∨
    (∃ n e pre, h = none ∧ err = some e ∧ env.policy n = Except.error e ∧
        (NewRedisClient env addr fuel).world.trace = pre ++ [Event.policyQuery n]) ∨
    (∃ c e pre, h = none ∧ err = some ⟨"unable to ping redis server: " ++ e.msg⟩ ∧
        (NewRedisClient env addr fuel).world.trace
          = pre ++ [Event.newClient c ⟨addr, "", 0⟩, Event.command c Command.Ping none,
              Event.command c Command.Ping (some e)]) := by
  rw [NewRedisClient_eq_runFrom] at hret ⊢
  rcases runFrom_returns env addr fuel 0 0 0 h err hret with
    ⟨c, pre, h1, h2, h3, _⟩ | h' | h'
  · exact Or.inl ⟨c, pre, h1, h2, h3⟩
  · exact Or.inr (Or.inl h')
  · exact Or.inr (Or.inr h')

theorem newRedisClient_returns_three_ways_witness :
    (NewRedisClient envDrop "localhost:6379" 1).outcome
      = some (none, some ⟨"unable to ping redis server: EOF"⟩) ∧
    ((∃ c pre, (none : Option redisClient) = some ⟨⟨c⟩⟩ ∧
        some (GoError.mk "unable to ping redis server: EOF") = none ∧
        (NewRedisClient envDrop "localhost:6379" 1).world.trace
          = pre ++ [Event.newClient c ⟨"localhost:6379", "", 0⟩,
              Event.command c Command.Ping none, Event.command c Command.Ping none]) ∨
    (∃ n e pre, (none : Option redisClient) = none ∧
        some (GoError.mk "unable to ping redis server: EOF") = some e ∧
        envDrop.policy n = Except.error e ∧
        (NewRedisClient envDrop "localhost:6379" 1).world.trace
          = pre ++ [Event.policyQuery n]) ∨
    (∃ c e pre, (none : Option redisClient) = none ∧
        some (GoError.mk "unable to ping redis server: EOF")
          = some ⟨"unable to ping redis server: " ++ e.msg⟩ ∧
        (NewRedisClient envDrop "localhost:6379" 1).world.trace
          = pre ++ [Event.newClient c ⟨"localhost:6379", "", 0⟩,
              Event.command c Command.Ping none, Event.command c Command.Ping (some e)])) :=
  ⟨rfl, newRedisClient_returns_three_ways envDrop "localhost:6379" 1 none
    (some ⟨"unable to ping redis server: EOF"⟩) rfl⟩

/-- C6 as stated fails: with a policy that never returns an error and a store
that answers the in-loop probe but not the confirmation probe, the call returns
a nil handle although no connection was confirmed and the policy is not
exhausted. -/
theorem newRedisClient_returns_unconfirmed_unexhausted :
    ¬ (∀ (h : Option redisClient) (err : Option GoError),
        (NewRedisClient envDrop "localhost:6379" 1).outcome = some (h, err) →
        (∃ rc, h = some rc) ∨ (∃ n e, envDrop.policy n = Except.error e)) := by
  intro hclaim
  rcases hclaim none (some ⟨"unable to ping redis server: EOF"⟩) rfl with ⟨rc, h⟩ | ⟨n, e, h⟩
  · simp at h
  · simp [envDrop, sampleEnv] at h

/-- C7: each of the eight forwarding methods issues exactly one command on the
session of the handle, the corresponding one with the same arguments in the
same order, and returns exactly what the `Result` of the command object handed
back by the library yields. -/
theorem redisClient_forwards (env : Env) (rc : redisClient) (w : World)
    (key field value : String) (keys pairs values : List String) (start stop count : Int)
    (v : GoValue) (expiration : Duration) :
    redisClient.Delete env rc keys w
      = ((env.intCmd w.commands (Command.Del keys)).Result,
          ⟨w.trace ++ [Event.command rc.client.session (Command.Del keys)
              (env.intCmd w.commands (Command.Del keys)).Result.2],
            w.sessions, w.commands + 1⟩) ∧
    redisClient.HGetAllMap env rc key w
      = ((env.mapCmd w.commands (Command.HGetAllMap key)).Result,
          ⟨w.trace ++ [Event.command rc.client.session (Command.HGetAllMap key)
              (env.mapCmd w.commands (Command.HGetAllMap key)).Result.2],
            w.sessions, w.commands + 1⟩) ∧
    redisClient.HMSet env rc key field value pairs w
      = ((env.statusCmd w.commands (Command.HMSet key field value pairs)).Result,
          ⟨w.trace ++ [Event.command rc.client.session (Command.HMSet key field value pairs)
              (env.statusCmd w.commands (Command.HMSet key field value pairs)).Result.2],
            w.sessions, w.commands + 1⟩) ∧
    redisClient.LPush env rc key values w
      = ((env.intCmd w.commands (Command.LPush key values)).Result,
          ⟨w.trace ++ [Event.command rc.client.session (Command.LPush key values)
              (env.intCmd w.commands (Command.LPush key values)).Result.2],
            w.sessions, w.commands + 1⟩) ∧
    redisClient.LRange env rc key start stop w
      = ((env.sliceCmd w.commands (Command.LRange key start stop)).Result,
          ⟨w.trace ++ [Event.command rc.client.session (Command.LRange key start stop)
              (env.sliceCmd w.commands (Command.LRange key start stop)).Result.2],
            w.sessions, w.commands + 1⟩) ∧
    redisClient.LRem env rc key count v w
      = ((env.intCmd w.commands (Command.LRem key count v)).Result,
          ⟨w.trace ++ [Event.command rc.client.session (Command.LRem key count v)
              (env.intCmd w.commands (Command.LRem key count v)).Result.2],
            w.sessions, w.commands + 1⟩) ∧
    redisClient.Ping env rc w
      = ((env.statusCmd w.commands Command.Ping).Result,
          ⟨w.trace ++ [Event.command rc.client.session Command.Ping
              (env.statusCmd w.commands Command.Ping).Result.2],
            w.sessions, w.commands + 1⟩) ∧
    redisClient.Set env rc key v expiration w
      = ((env.statusCmd w.commands (Command.Set key v expiration)).Result,
          ⟨w.trace ++ [Event.command rc.client.session (Command.Set key v expiration)
              (env.statusCmd w.commands (Command.Set key v expiration)).Result.2],
            w.sessions, w.commands + 1⟩) :=
  ⟨rfl, rfl, rfl, rfl, rfl, rfl, rfl, rfl⟩

/-- C8: every session opened by `NewRedisClient` is opened with the address
`addr` unchanged, the empty password and database index 0. -/
theorem newRedisClient_options_fixed (env : Env) (addr : String) (fuel : Nat)
    (c : Nat) (o : Options)
    (hopen : Event.newClient c o ∈ (NewRedisClient env addr fuel).world.trace) :
    o.Addr = addr ∧ o.Password = "" ∧ o.DB = 0 := by
  rw [NewRedisClient_eq_runFrom] at hopen
  rw [runFrom_options env addr fuel 0 0 0 c o hopen]
  exact ⟨rfl, rfl, rfl⟩

theorem newRedisClient_options_fixed_witness :
    Event.newClient 1 ⟨"localhost:6379", "", 0⟩
        ∈ (NewRedisClient envFlaky "localhost:6379" 2).world.trace ∧
    (Options.mk "localhost:6379" "" 0).Addr = "localhost:6379" ∧
    (Options.mk "localhost:6379" "" 0).Password = "" ∧
    (Options.mk "localhost:6379" "" 0).DB = 0 :=
  ⟨by decide, newRedisClient_options_fixed envFlaky "localhost:6379" 2 1
    ⟨"localhost:6379", "", 0⟩ (by decide)⟩

set_option maxRecDepth 8000 in
/-- C9 as stated fails: when the store at "db:1" refuses every probe with
"connection refused", the first in-loop probe fails and no line logged during
the call notes both that error and the address. -/
theorem newRedisClient_failure_line_omits_address :
    (NewRedisClient envDown "db:1" 3).world.trace[4]?
      = some (Event.command 0 Command.Ping (some ⟨"connection refused"⟩)) ∧
    (NewRedisClient envDown "db:1" 3).world.trace[5]?
      = some (Event.logLine
          "backing off because redis didn't respond to ping: connection refused") ∧
    ∀ line ∈ logLines (NewRedisClient envDown "db:1" 3).world.trace,
      ¬ ("connection refused".data <:+: line.data ∧ "db:1".data <:+: line.data) := by
  decide

/-- C9, as the code has it: in every run of `NewRedisClient`, each failed
in-loop probe (a failed `Ping` that directly follows the opening of its
session) is directly followed by one logged line, and the call after that line
is not a logged line. That line carries only the error text: it is "backing
off because redis didn't respond to ping: " followed by the message of the
error of the probe. The address is logged by the line "connecting to redis
server " followed by the address, directly before the session is opened. -/
theorem newRedisClient_failed_probe_logged (env : Env) (addr : String) (fuel : Nat)
    (i c : Nat) (o : Options) (e : GoError)
    (hopen : (NewRedisClient env addr fuel).world.trace[i]? = some (Event.newClient c o))
    (hfail : (NewRedisClient env addr fuel).world.trace[i + 1]?
      = some (Event.command c Command.Ping (some e))) :
    (NewRedisClient env addr fuel).world.trace[i + 2]?
      = some (Event.logLine ("backing off because redis didn't respond to ping: " ++ e.msg)) ∧
    (∀ l, (NewRedisClient env addr fuel).world.trace[i + 3]? ≠ some (Event.logLine l)) ∧
    1 ≤ i ∧
    (NewRedisClient env addr fuel).world.trace[i - 1]?
      = some (Event.logLine ("connecting to redis server " ++ addr)) := by
  rw [NewRedisClient_eq_runFrom] at hopen hfail ⊢
  exact runFrom_failure_logged env addr fuel 0 0 0 i c o e hopen hfail

theorem newRedisClient_failed_probe_logged_witness :
    (NewRedisClient envDown "db:1" 3).world.trace[3]?
      = some (Event.newClient 0 ⟨"db:1", "", 0⟩) ∧
    (NewRedisClient envDown "db:1" 3).world.trace[3 + 1]?
      = some (Event.command 0 Command.Ping (some ⟨"connection refused"⟩)) ∧
    (NewRedisClient envDown "db:1" 3).world.trace[3 + 2]?
      = some (Event.logLine ("backing off because redis didn't respond to ping: "
          ++ (GoError.mk "connection refused").msg)) :=
  ⟨by decide, by decide,
    (newRedisClient_failed_probe_logged envDown "db:1" 3 3 0 ⟨"db:1", "", 0⟩
      ⟨"connection refused"⟩ (by decide) (by decide)).1⟩

/-- C10: if the policy returns an error for the attempt count `N` (in
particular for the least such count), then for every address and all probe
outcomes `NewRedisClient` returns within `N + 1` loop iterations, whatever
further iterations it is allowed, and it queries the policy at most `N + 1`
times, opens at most `N` sessions and issues at most `N + 1` probes, the
confirmation probe included. -/
theorem newRedisClient_terminates (env : Env) (addr : String) (N : Nat) (e : GoError)
    (herr : env.policy N = Except.error e) (fuel : Nat) (hfuel : N < fuel) :
    (NewRedisClient env addr fuel).outcome ≠ none ∧
    NewRedisClient env addr fuel = NewRedisClient env addr (N + 1) ∧
    (policyQueries (NewRedisClient env addr fuel).world.trace).length ≤ N + 1 ∧
    sessionsOpened (NewRedisClient env addr fuel).world.trace ≤ N ∧
    commandsIssued (NewRedisClient env addr fuel).world.trace ≤ N + 1 := by
  have herr' : env.policy (0 + N) = Except.error e := by simpa using herr
  obtain ⟨h1, h2, h3, h4⟩ := runFrom_bounded env addr N 0 0 0 fuel e herr' hfuel
  obtain ⟨g1, -⟩ := runFrom_bounded env addr N 0 0 0 (N + 1) e herr' (Nat.lt_succ_self N)
  obtain ⟨more, rfl⟩ : ∃ more, fuel = N + 1 + more := ⟨fuel - (N + 1), by omega⟩
  simp only [NewRedisClient_eq_runFrom]
  exact ⟨h1, runFrom_stable_le env addr (N + 1) 0 0 0 g1 more, h2, h3, h4⟩

theorem newRedisClient_terminates_witness :
    envDown.policy 2 = Except.error ⟨"retries exhausted"⟩ ∧
    NewRedisClient envDown "localhost:6379" 7 = NewRedisClient envDown "localhost:6379" 3 ∧
    commandsIssued (NewRedisClient envDown "localhost:6379" 7).world.trace ≤ 3 :=
  have h := newRedisClient_terminates envDown "localhost:6379" 2 ⟨"retries exhausted"⟩
    rfl 7 (by decide)
  ⟨rfl, h.2.1, h.2.2.2.2⟩

end Omniscient
